import Mathlib

set_option maxHeartbeats 1000000
set_option maxRecDepth 100000

/-!
Shallow embedding of the logo-wizard application:
  src/types.ts            — data model (BrandInfo, LogoConcept, StyleGuide, AppStep)
  src/App.tsx             — the workflow controller (handleGenerate / generateLogoConcepts /
                            handleSelectLogo / handleOpenKeySelector) and its stage machine
  src/services/geminiService.ts — the GeminiService class (module-level client construction)

External collaborators (the Gemini service, window.aistudio, Date.now, JSON.parse, alert)
are modelled by an `Env` record supplying each call's outcome; calls actually dispatched by
the code are recorded in an `Effect` log.  Machine-level details that the claims do not
touch (React re-rendering, promise scheduling) are collapsed: each handler is a function
from the pre-call state and the environment to the post-call state plus the effect log.
-/

/-- src/types.ts `enum AppStep`. -/
inductive AppStep where
  | IDLE
  | WIZARD
  | GENERATING
  | GALLERY
  | STYLE_GUIDE
deriving DecidableEq

/-- src/types.ts `interface BrandInfo`. -/
structure BrandInfo where
  businessName : String
  industry : String
  coreValues : String
  targetAudience : String
  preferredStyle : String
deriving DecidableEq

/-- src/types.ts `interface LogoConcept`. -/
structure LogoConcept where
  id : String
  imageUrl : String
  description : String
  conceptName : String
deriving DecidableEq

/-- A JSON value, as produced by the runtime `JSON.parse`.  The controller stores the parse
result untyped (TypeScript casts it to `StyleGuide` without runtime validation), so the
state holds a `Json` value. -/
inductive Json where
  | null
  | bool (b : Bool)
  | num (n : Int)
  | str (s : String)
  | arr (elems : List Json)
  | obj (fields : List (String × Json))

/-- Field access on a parsed JSON value (TypeScript property access such as
`styleGuide.primaryColor`): defined only on objects, `none` when the key is absent. -/
def jsonField : Json → String → Option Json
  | Json.obj fields, key => fields.lookup key
  | _, _ => none

/-- One entry of `response.candidates?.[0]?.content?.parts`.  `inlineData = some d` models a
part whose `inlineData.data` is the base64 string `d`; `none` models a part without
`inlineData` (e.g. a text part).  The optional-chaining fallback `|| []` is modelled by the
surrounding `List RespPart` possibly being empty. -/
structure RespPart where
  inlineData : Option String
deriving DecidableEq

/-- Outbound interactions of the controller, in dispatch order. -/
inductive Effect where
  | setLoading (msg : String)
  | openSelectKey
  | imageRequest (prompt : String)
  | guideRequest (prompt : String)
  | alert (msg : String)
deriving DecidableEq

/-- The controller's React state (src/App.tsx lines 30-43).  `loadingMsg` is write-only
informational state and is tracked in the effect log (`Effect.setLoading`) instead of here. -/
structure AppState where
  step : AppStep
  hasKey : Bool
  errorMsg : Option String
  brandInfo : BrandInfo
  concepts : List LogoConcept
  selectedConcept : Option LogoConcept
  styleGuide : Option Json

/-- Environment: outcomes supplied by the external collaborators for one handler run.
`imageCall i` is the result of the i-th `ai.models.generateContent` image call (an
`Except.error m` models a rejected promise whose error message is `m`); `now i` is the
`Date.now()` value observed when the i-th concept is pushed; `guideCall` is the style-guide
call's outcome (`Except.ok t` carries `response.text`, with `none` for `undefined`);
`parseJson` is the behaviour of the runtime `JSON.parse` (`none` models a thrown
`SyntaxError`). -/
structure Env where
  aistudioPresent : Bool
  hasSelectedApiKey : Bool
  openSelectKeyOk : Bool
  imageCall : Nat → Except String (List RespPart)
  now : Nat → Nat
  guideCall : Except String (Option String)
  parseJson : String → Option Json

/-- `needle` occurs at the start of `hay` (character lists). -/
def leadMatch : List Char → List Char → Bool
  | [], _ => true
  | _ :: _, [] => false
  | a :: as, b :: bs => a = b && leadMatch as bs

/-- `needle` occurs somewhere in `hay` (character lists). -/
def subMatch (needle : List Char) : List Char → Bool
  | [] => leadMatch needle []
  | b :: bs => leadMatch needle (b :: bs) || subMatch needle bs

/-- JavaScript `s.includes(sub)`. -/
def strContains (s sub : String) : Bool :=
  subMatch sub.data s.data

/-- The characters of `s` before the first occurrence of `sep`; the whole list when `sep`
does not occur.  This is exactly JavaScript `s.split(sep)[0]`. -/
def takeUntil (sep : Char) : List Char → List Char
  | [] => []
  | c :: rest => if c = sep then [] else c :: takeUntil sep rest

/-- JavaScript `s.split(sep)[0]` for a single-character separator. -/
def firstSegment (sep : Char) (s : String) : String :=
  String.mk (takeUntil sep s.data)

/-- src/App.tsx line 112: prefix of the data URL built around the base64 payload. -/
def dataUrlHead : String := "data:image/png;base64,"

/-- src/App.tsx lines 108-114: the loop `for (const part of parts) if (part.inlineData)
imageUrl = data-url(part.inlineData.data)`.  Each part carrying inline data overwrites
`imageUrl`, so the final value comes from the LAST such part; `""` when there is none. -/
def extractImageUrl (parts : List RespPart) : String :=
  parts.foldl
    (fun acc p =>
      match p.inlineData with
      | some d => dataUrlHead ++ d
      | none => acc)
    ""

/-- The last `inlineData` payload among the parts, if any (specification-side companion of
`extractImageUrl`, used to characterise it). -/
def lastInline : List RespPart → Option String
  | [] => none
  | p :: rest =>
    match lastInline rest with
    | some d => some d
    | none => p.inlineData

/-- src/App.tsx lines 74-78: the three fixed style modifiers. -/
def styles : List String :=
  ["minimalist vector emblem, high-end professional brand mark, clean lines, solid white background",
   "bold modern geometric icon, corporate flat design, high contrast, solid white background",
   "elegant premium typographic mark, unique letterform logo, professional design, solid white background"]

/-- src/App.tsx lines 87-94: the image prompt template. -/
def mkPrompt (brand : BrandInfo) (styleModifier : String) : String :=
  "Create a professional logo for:\nName: " ++ brand.businessName ++
  "\nIndustry: " ++ brand.industry ++
  "\nStyle: " ++ brand.preferredStyle ++ ", " ++ styleModifier ++
  "\nValues: " ++ brand.coreValues ++
  "\nAudience: " ++ brand.targetAudience ++
  "\n\nTechnical Requirements: Vector style, minimalist icon, flat design, solid white background. No realistic photos, no complex gradients, no 3D effects. Clean and scalable."

/-- src/App.tsx line 121: `concept-${Date.now()}-${i}` where `t` is the `Date.now()` value. -/
def mkId (t i : Nat) : String :=
  "concept-" ++ toString t ++ "-" ++ toString i

/-- src/App.tsx line 124: `Strategic identity design focused on ${styleModifier.split(',')[0]}.` -/
def mkDescription (styleModifier : String) : String :=
  "Strategic identity design focused on " ++ firstSegment ',' styleModifier ++ "."

/-- src/App.tsx lines 120-125: the LogoConcept pushed for iteration `i`. -/
def mkConcept (t i : Nat) (imageUrl : String) (styleModifier : String) : LogoConcept :=
  { id := mkId t i
    imageUrl := imageUrl
    conceptName := "Concept " ++ toString (i + 1)
    description := mkDescription styleModifier }

/-- src/App.tsx line 117: the error thrown when no inline image payload was found. -/
def emptyResultMsg : String :=
  "The design engine returned an empty result. This usually happens if the prompt is too vague or the model is overloaded."

/-- src/App.tsx line 134. -/
def rateLimitMsg : String := "Too many requests. Please wait 60 seconds and try again."

/-- src/App.tsx line 139: fallback when `err.message` is falsy. -/
def connectionFallbackMsg : String := "Failed to generate concept. Please check your connection."

/-- src/App.tsx lines 129-139: the catch block of one loop iteration, which rethrows a
classified error.  `includes` is `strContains`; the final `err.message || fallback` is the
`m = ""` case. -/
def classifyCaught (m : String) : String :=
  if strContains m "404" || strContains m "not found" then "BILLING_REQUIRED"
  else if strContains m "429" then rateLimitMsg
  else if strContains m "API key" then "INVALID_KEY"
  else if m = "" then connectionFallbackMsg
  else m

/-- src/App.tsx lines 80-143: the sequential generation loop of `generateLogoConcepts`,
over the remaining style modifiers, with `i` the current loop index and `acc` the
`results` array so far.  Returns the function's outcome (`Except.error` models the thrown
error, already classified by the per-iteration catch) together with the effects the loop
dispatched, in order. -/
def runConcepts (env : Env) (brand : BrandInfo) :
    List String → Nat → List LogoConcept → Except String (List LogoConcept) × List Effect
  | [], _, acc => (Except.ok acc, [])
  | styleModifier :: rest, i, acc =>
    let eff : List Effect :=
      [Effect.setLoading ("Designing visual concept " ++ toString (i + 1) ++ " of 3..."),
       Effect.imageRequest (mkPrompt brand styleModifier)]
    match env.imageCall i with
    | Except.error msg => (Except.error (classifyCaught msg), eff)
    | Except.ok parts =>
      let imageUrl := extractImageUrl parts
      if imageUrl = "" then
        (Except.error (classifyCaught emptyResultMsg), eff)
      else
        let r := runConcepts env brand rest (i + 1)
                   (acc ++ [mkConcept (env.now i) i imageUrl styleModifier])
        (r.1, eff ++ r.2)

/-- src/App.tsx lines 150-157 together with `handleOpenKeySelector` (lines 59-71): the
credential gate at the top of `handleGenerate`.  Returns (proceed?, updated state, effects).
When `window.aistudio` is absent the check is skipped entirely; when the key is already
selected nothing happens; otherwise `openSelectKey` is awaited once — on resolution
`hasKey` is set and the run proceeds, on rejection `handleGenerate` returns early. -/
def keyGate (env : Env) (s : AppState) : Bool × AppState × List Effect :=
  if env.aistudioPresent then
    if env.hasSelectedApiKey then (true, s, [])
    else if env.openSelectKeyOk then (true, { s with hasKey := true }, [Effect.openSelectKey])
    else (false, s, [Effect.openSelectKey])
  else (true, s, [])

/-- src/App.tsx line 160. -/
def initLoadingMsg : String := "Initializing AI Design Studio..."

/-- src/App.tsx line 170. -/
def billingErrorMsg : String :=
  "Your current API key doesn\x27t have image generation enabled. Please select a project with billing enabled in Google AI Studio."

/-- src/App.tsx line 172. -/
def invalidKeyErrorMsg : String :=
  "The selected API key is invalid or expired. Please re-select your key."

/-- src/App.tsx line 174: fallback when the caught error's message is falsy. -/
def unexpectedErrorMsg : String := "An unexpected error occurred during design generation."

/-- src/App.tsx lines 162-177: the try/catch around `generateLogoConcepts`, applied to the
batch outcome `out`.  On success stores the concepts and moves to GALLERY; on failure maps
the sentinel errors `BILLING_REQUIRED` / `INVALID_KEY` (and a falsy message) to their
user-visible texts, records the message and moves back to WIZARD. -/
def finishGenerate (s1 : AppState) (eff : List Effect)
    (out : Except String (List LogoConcept) × List Effect) : AppState × List Effect :=
  match out with
  | (Except.ok results, genEff) =>
    ({ s1 with step := AppStep.GALLERY, concepts := results },
     eff ++ [Effect.setLoading initLoadingMsg] ++ genEff)
  | (Except.error m, genEff) =>
    let msg : String :=
      if m = "BILLING_REQUIRED" then billingErrorMsg
      else if m = "INVALID_KEY" then invalidKeyErrorMsg
      else if m = "" then unexpectedErrorMsg
      else m
    ({ s1 with step := AppStep.WIZARD, errorMsg := some msg },
     eff ++ [Effect.setLoading initLoadingMsg] ++ genEff)

/-- src/App.tsx lines 146-178: `handleGenerate` (the spec's `submitBrief`).  Clears
`errorMsg`, runs the credential gate, and on proceed runs the generation batch and finishes
via `finishGenerate`.  The transient GENERATING stage set at line 159 is overwritten before
the handler returns and does not appear in the final state. -/
def handleGenerate (env : Env) (s : AppState) : AppState × List Effect :=
  match keyGate env { s with errorMsg := none } with
  | (false, s1, eff) => (s1, eff)
  | (true, s1, eff) => finishGenerate s1 eff (runConcepts env s1.brandInfo styles 0 [])

/-- src/App.tsx line 187: the style-guide prompt. -/
def guidePrompt (brand : BrandInfo) (concept : LogoConcept) : String :=
  "Based on the brand \"" ++ brand.businessName ++ "\" and the selected logo concept: \"" ++
  concept.description ++ "\", create a professional style guide in JSON format."

/-- src/App.tsx line 183. -/
def guideLoadingMsg : String := "Extending your brand visual system..."

/-- src/App.tsx line 213: the non-blocking notice shown when the style guide fails. -/
def guideAlertMsg : String :=
  "Logo finalize! We encountered a small issue generating the style guide, but your logo is ready."

/-- src/App.tsx line 208: `response.text || '\x7b\x7d'` — the empty-object fallback when
`response.text` is `undefined` or the empty string. -/
def effectiveText : Option String → String
  | none => "\x7b\x7d"
  | some t => if t = "" then "\x7b\x7d" else t

/-- src/App.tsx lines 180-216: `handleSelectLogo` (the spec's `selectConcept`).  Stores the
selected concept, dispatches the style-guide request with NO credential check, parses the
response text; on success stores the parsed JSON and moves to STYLE_GUIDE, on any thrown
error (rejected call or JSON.parse failure) alerts and moves back to GALLERY.  As in
`handleGenerate`, the transient GENERATING stage is overwritten before the handler
returns. -/
def handleSelectLogo (env : Env) (s : AppState) (concept : LogoConcept) :
    AppState × List Effect :=
  let s1 : AppState := { s with selectedConcept := some concept }
  let eff : List Effect :=
    [Effect.setLoading guideLoadingMsg,
     Effect.guideRequest (guidePrompt s.brandInfo concept)]
  match env.guideCall with
  | Except.error _ =>
    ({ s1 with step := AppStep.GALLERY }, eff ++ [Effect.alert guideAlertMsg])
  | Except.ok t =>
    match env.parseJson (effectiveText t) with
    | none =>
      ({ s1 with step := AppStep.GALLERY }, eff ++ [Effect.alert guideAlertMsg])
    | some j =>
      ({ s1 with step := AppStep.STYLE_GUIDE, styleGuide := some j }, eff)

/-- The i-th underlying image request of a `submitBrief` batch fails: the call rejects, or
it resolves without any inline image payload (which line 117 turns into a throw). -/
def requestFails (env : Env) (i : Nat) : Bool :=
  match env.imageCall i with
  | Except.error _ => true
  | Except.ok parts => extractImageUrl parts == ""

/-- The style-guide run of `handleSelectLogo` fails: the call rejects or `JSON.parse`
throws on the (fallback-substituted) response text. -/
def guideFails (env : Env) : Bool :=
  match env.guideCall with
  | Except.error _ => true
  | Except.ok t => (env.parseJson (effectiveText t)).isNone

/-- An effect that dispatches a generation request to the remote service. -/
def isGenRequest : Effect → Bool
  | Effect.imageRequest _ => true
  | Effect.guideRequest _ => true
  | _ => false

/-- An image-generation dispatch. -/
def isImageRequest : Effect → Bool
  | Effect.imageRequest _ => true
  | _ => false

/-- src/App.tsx lines 30-43: the initial React state. -/
def initState : AppState :=
  { step := AppStep.IDLE
    hasKey := false
    errorMsg := none
    brandInfo :=
      { businessName := ""
        industry := ""
        coreValues := ""
        targetAudience := ""
        preferredStyle := "Modern" }
    concepts := []
    selectedConcept := none
    styleGuide := none }

/-- The user-triggerable transitions of the rendered UI (src/App.tsx render tree):
`startWizard` = the Start button (line 254) or "Try Different Parameters" (line 370);
`resetIdle` = the header logo (line 222) or "Restart Studio" (line 432); `setBrand` = the
wizard form inputs; `keySelect` = the header key button (line 231); `submit` = the wizard
form's onSubmit; `select` = a gallery card's "Finalize Brand Kit" button (line 362). -/
inductive Event where
  | startWizard
  | resetIdle
  | setBrand (b : BrandInfo)
  | keySelect (env : Env)
  | submit (env : Env)
  | select (env : Env) (c : LogoConcept)

/-- One UI step: each event is guarded by the stage in which its control is rendered
(`submit` only from WIZARD, `select` only from GALLERY on a displayed concept; the header
controls are always rendered). -/
def stepEvent (s : AppState) (e : Event) : AppState :=
  match e with
  | Event.startWizard =>
    if s.step = AppStep.IDLE ∨ s.step = AppStep.GALLERY then { s with step := AppStep.WIZARD } else s
  | Event.resetIdle => { s with step := AppStep.IDLE }
  | Event.setBrand b =>
    if s.step = AppStep.WIZARD then { s with brandInfo := b } else s
  | Event.keySelect env =>
    if env.aistudioPresent && env.openSelectKeyOk then { s with hasKey := true } else s
  | Event.submit env =>
    if s.step = AppStep.WIZARD then (handleGenerate env s).1 else s
  | Event.select env c =>
    if s.step = AppStep.GALLERY ∧ c ∈ s.concepts then (handleSelectLogo env s c).1 else s

/-- Reachable controller states: the initial state and everything obtainable by UI events
(with arbitrary collaborator outcomes). -/
inductive Reach : AppState → Prop where
  | init : Reach initState
  | next : ∀ {s : AppState} (e : Event), Reach s → Reach (stepEvent s e)

/-! ### The GeminiService module (src/services/geminiService.ts) -/

/-- src/services/geminiService.ts line 5: `const API_KEY = process.env.API_KEY || ""`,
evaluated once at module load; `loadEnvKey` is the value of `process.env.API_KEY` at that
moment (`none` = undefined). -/
def API_KEY (loadEnvKey : Option String) : String :=
  (loadEnvKey.getD "")

/-- The `GoogleGenAI` client: the only datum relevant to the claims is the API key it was
constructed with. -/
structure GoogleGenAI where
  apiKey : String
deriving DecidableEq

/-- src/services/geminiService.ts line 8: `private static ai = new GoogleGenAI({ apiKey:
API_KEY })`, constructed once at module load. -/
def GeminiService.ai (loadEnvKey : Option String) : GoogleGenAI :=
  { apiKey := API_KEY loadEnvKey }

/-- A request dispatched to the generative service, tagged with the API key of the client
that sends it. -/
structure ServiceRequest where
  apiKey : String
  model : String
  prompt : String
deriving DecidableEq

/-- src/services/geminiService.ts lines 14-18. -/
def serviceStyles : List String :=
  ["minimalist and vector style",
   "bold and modern geometric",
   "elegant and professional typography"]

/-- src/services/geminiService.ts lines 21-24: the image prompt template (whitespace of the
backtick template literal preserved). -/
def servicePrompt (brand : BrandInfo) (styleModifier : String) : String :=
  "Professional professional logo for a small business named \"" ++ brand.businessName ++
  "\" in the " ++ brand.industry ++ " industry. \n      Values: " ++ brand.coreValues ++
  ". Style: " ++ brand.preferredStyle ++ ", " ++ styleModifier ++
  ". \n      Target Audience: " ++ brand.targetAudience ++
  ". \n      The logo should be modern, memorable, high resolution, white background, no text besides the business name if appropriate."

/-- src/services/geminiService.ts lines 20-32: the three image requests dispatched by
`GeminiService.generateLogoConcepts`, each through `this.ai` — the module-load client. -/
def GeminiService.conceptRequests (ai : GoogleGenAI) (brand : BrandInfo) :
    List ServiceRequest :=
  serviceStyles.map fun styleModifier =>
    { apiKey := ai.apiKey
      model := "gemini-2.5-flash-image"
      prompt := servicePrompt brand styleModifier }

/-- src/services/geminiService.ts lines 34-46: result mapping for one service concept; note
there is NO throw when `imageUrl` stays empty — the concept is returned as-is. -/
def GeminiService.mkConcept (index : Nat) (parts : List RespPart) (brand : BrandInfo)
    (styleModifier : String) : LogoConcept :=
  { id := "concept-" ++ toString index
    imageUrl := extractImageUrl parts
    conceptName := "Concept " ++ toString (index + 1) ++ ": " ++ firstSegment ' ' styleModifier
    description := "This design focuses on " ++ styleModifier ++ " to reflect " ++
      brand.coreValues ++ "." }

/-- src/services/geminiService.ts lines 53-57: the style-guide prompt template. -/
def serviceGuidePrompt (brand : BrandInfo) (selectedLogo : LogoConcept) : String :=
  "Based on a logo that is " ++ selectedLogo.description ++ " for \"" ++ brand.businessName ++
  "\", \n    provide a professional style guide including:\n    1. Primary, Secondary, and Accent hex colors that match this aesthetic.\n    2. A professional font suggestion from Google Fonts.\n    3. 3-4 usage tips for maintaining brand consistency."

/-- src/services/geminiService.ts lines 59-79: the single request dispatched by
`GeminiService.generateStyleGuide`, again through `this.ai`. -/
def GeminiService.guideRequest (ai : GoogleGenAI) (brand : BrandInfo)
    (selectedLogo : LogoConcept) : ServiceRequest :=
  { apiKey := ai.apiKey
    model := "gemini-3-flash-preview"
    prompt := serviceGuidePrompt brand selectedLogo }

/-! ### Concrete sample data (used by witnesses and counterexamples) -/

/-- The spec's end-to-end sample brief (spec §8, property 6). -/
def sampleBrief : BrandInfo :=
  { businessName := "Skyline Cafe"
    industry := "Hospitality"
    coreValues := "sustainable, warm"
    targetAudience := "young professionals"
    preferredStyle := "Modern" }

/-- A well-formed style-guide response text. -/
def goodGuideText : String :=
  "\x7b\"primaryColor\":\"#1A2B3C\",\"secondaryColor\":\"#2B3C4D\",\"accentColor\":\"#3C4D5E\",\"fontFamily\":\"Inter\",\"usageTips\":[\"Maintain clear space around the mark.\"]\x7d"

/-- The JSON value that `JSON.parse` yields on `goodGuideText`. -/
def goodGuideJson : Json :=
  Json.obj
    [("primaryColor", Json.str "#1A2B3C"),
     ("secondaryColor", Json.str "#2B3C4D"),
     ("accentColor", Json.str "#3C4D5E"),
     ("fontFamily", Json.str "Inter"),
     ("usageTips", Json.arr [Json.str "Maintain clear space around the mark."])]

/-- A fully cooperative environment: credential selected, every image call returns one
inline payload, the style-guide call returns `goodGuideText` and `JSON.parse` parses it. -/
def okEnv : Env :=
  { aistudioPresent := true
    hasSelectedApiKey := true
    openSelectKeyOk := true
    imageCall := fun _ => Except.ok [{ inlineData := some "AAAA" }]
    now := fun _ => 0
    guideCall := Except.ok (some goodGuideText)
    parseJson := fun t => if t = goodGuideText then some goodGuideJson else none }

/-- Environment with no credential selected and a failing selection flow; all remote calls
reject. -/
def envNoCred : Env :=
  { aistudioPresent := true
    hasSelectedApiKey := false
    openSelectKeyOk := false
    imageCall := fun _ => Except.error "offline"
    now := fun _ => 0
    guideCall := Except.error "offline"
    parseJson := fun _ => none }

/-- Environment whose image calls reject with a not-found message (the 404-class response of
spec §7) and whose style-guide call rejects. -/
def env404 : Env :=
  { aistudioPresent := true
    hasSelectedApiKey := true
    openSelectKeyOk := true
    imageCall := fun _ =>
      Except.error "models/gemini-2.5-flash-image is not found for API version v1"
    now := fun _ => 0
    guideCall := Except.error "Internal error encountered."
    parseJson := fun _ => none }

/-- Environment whose style-guide call returns the text `\x7b\x7d` (an empty JSON object),
which `JSON.parse` parses to an object with no fields — exactly the runtime behaviour of
`JSON.parse` on that text. -/
def envEmptyGuide : Env :=
  { aistudioPresent := true
    hasSelectedApiKey := true
    openSelectKeyOk := true
    imageCall := fun _ => Except.ok [{ inlineData := some "AAAA" }]
    now := fun _ => 0
    guideCall := Except.ok (some "\x7b\x7d")
    parseJson := fun t => if t = "\x7b\x7d" then some (Json.obj []) else none }

/-- Environment whose image responses contain TWO inline image payloads. -/
def envTwoImages : Env :=
  { aistudioPresent := true
    hasSelectedApiKey := true
    openSelectKeyOk := true
    imageCall := fun _ =>
      Except.ok [{ inlineData := some "FIRST" }, { inlineData := some "SECOND" }]
    now := fun _ => 0
    guideCall := Except.error "offline"
    parseJson := fun _ => none }

/-- Environment whose image responses resolve but contain no inline image payload (e.g. a
text-only or safety-filtered response). -/
def envNoImage : Env :=
  { aistudioPresent := true
    hasSelectedApiKey := true
    openSelectKeyOk := true
    imageCall := fun _ => Except.ok []
    now := fun _ => 0
    guideCall := Except.error "offline"
    parseJson := fun _ => none }

/-- The wizard stage, reached from the initial state by the Start button. -/
def sWizard : AppState := stepEvent initState Event.startWizard

/-- The wizard stage with the sample brief typed in. -/
def sBrief : AppState := stepEvent sWizard (Event.setBrand sampleBrief)

/-- The gallery stage, reached by a successful submit under `okEnv`. -/
def sGallery : AppState := stepEvent sBrief (Event.submit okEnv)

/-- The first concept displayed in `sGallery`. -/
def conceptZero : LogoConcept :=
  { id := "concept-0-0"
    imageUrl := "data:image/png;base64,AAAA"
    conceptName := "Concept 1"
    description := "Strategic identity design focused on minimalist vector emblem." }

/-- The style-guide stage, reached by selecting `conceptZero` under `okEnv`. -/
def sGuide : AppState := stepEvent sGallery (Event.select okEnv conceptZero)

/-- The state after clicking the reset control from the style-guide stage. -/
def sReset : AppState := stepEvent sGuide Event.resetIdle

/-! ### Helper lemmas -/

theorem keyGate_shape (env : Env) (s : AppState) :
    ∃ ok b eff, keyGate env s = (ok, { s with hasKey := b }, eff) := by
  unfold keyGate
  cases h1 : env.aistudioPresent
  · exact ⟨true, s.hasKey, [], by simp⟩
  · cases h2 : env.hasSelectedApiKey
    · cases h3 : env.openSelectKeyOk
      · exact ⟨false, s.hasKey, [Effect.openSelectKey], by simp⟩
      · exact ⟨true, true, [Effect.openSelectKey], by simp⟩
    · exact ⟨true, s.hasKey, [], by simp⟩

theorem keyGate_of_hasKey (env : Env) (s : AppState) (h : env.hasSelectedApiKey = true) :
    keyGate env s = (true, s, []) := by
  unfold keyGate
  cases h1 : env.aistudioPresent <;> simp [h]

theorem keyGate_noCred (env : Env) (s : AppState) (h1 : env.aistudioPresent = true)
    (h2 : env.hasSelectedApiKey = false) (h3 : env.openSelectKeyOk = false) :
    keyGate env s = (false, s, [Effect.openSelectKey]) := by
  unfold keyGate
  simp [h1, h2, h3]

theorem keyGate_openOk (env : Env) (s : AppState) (h1 : env.aistudioPresent = true)
    (h2 : env.hasSelectedApiKey = false) (h3 : env.openSelectKeyOk = true) :
    keyGate env s = (true, { s with hasKey := true }, [Effect.openSelectKey]) := by
  unfold keyGate
  simp [h1, h2, h3]

theorem keyGate_proceeds (env : Env) (s : AppState)
    (hcred : env.aistudioPresent = true → env.hasSelectedApiKey = true ∨ env.openSelectKeyOk = true) :
    (keyGate env s).1 = true := by
  unfold keyGate
  cases h1 : env.aistudioPresent
  · simp
  · cases h2 : env.hasSelectedApiKey
    · cases h3 : env.openSelectKeyOk
      · rcases hcred h1 with h | h
        · exact absurd h (by simp [h2])
        · exact absurd h (by simp [h3])
      · simp [h2]
    · simp [h2]

theorem extract_foldl (parts : List RespPart) :
    ∀ acc : String,
      parts.foldl
        (fun acc p =>
          match p.inlineData with
          | some d => dataUrlHead ++ d
          | none => acc) acc
      = (match lastInline parts with
         | some d => dataUrlHead ++ d
         | none => acc) := by
  induction parts with
  | nil => intro acc; rfl
  | cons p rest ih =>
    intro acc
    simp only [List.foldl_cons, lastInline]
    rw [ih]
    cases hl : lastInline rest <;> cases hp : p.inlineData <;> simp

theorem extractImageUrl_eq (parts : List RespPart) :
    extractImageUrl parts
      = (match lastInline parts with
         | some d => dataUrlHead ++ d
         | none => "") :=
  extract_foldl parts ""

theorem mkId_data_getLast (t i : Nat) (c : Char) (h : (toString i).data = [c]) :
    (mkId t i).data.getLast? = some c := by
  unfold mkId
  rw [String.data_append, h]
  exact List.getLast?_concat _

theorem mkId_ne (t u i j : Nat) (ci cj : Char) (hi : (toString i).data = [ci])
    (hj : (toString j).data = [cj]) (hc : ci ≠ cj) : mkId t i ≠ mkId u j := by
  intro h
  apply hc
  have h2 : (mkId t i).data.getLast? = (mkId u j).data.getLast? := by rw [h]
  rw [mkId_data_getLast t i ci hi, mkId_data_getLast u j cj hj] at h2
  exact Option.some.inj h2

theorem requestFails_false_elim (env : Env) (i : Nat) (h : requestFails env i = false) :
    ∃ parts, env.imageCall i = Except.ok parts ∧ ¬ extractImageUrl parts = "" := by
  unfold requestFails at h
  cases hc : env.imageCall i
  · rw [hc] at h; exact Bool.noConfusion h
  · rw [hc] at h
    exact ⟨_, rfl, by simpa using h⟩

theorem runConcepts_ok_shape (env : Env) (brand : BrandInfo) :
    ∀ (rest : List String) (i : Nat) (acc res : List LogoConcept) (eff : List Effect),
      runConcepts env brand rest i acc = (Except.ok res, eff) →
      ∃ tail : List LogoConcept,
        res = acc ++ tail ∧
        tail.length = rest.length ∧
        (∀ k (hk : k < tail.length),
          (tail.get ⟨k, hk⟩).id = mkId (env.now (i + k)) (i + k) ∧
          (tail.get ⟨k, hk⟩).imageUrl ≠ "") ∧
        (∀ k, k < rest.length → requestFails env (i + k) = false) := by
  intro rest
  induction rest with
  | nil =>
    intro i acc res eff h
    simp only [runConcepts, Prod.mk.injEq, Except.ok.injEq] at h
    obtain ⟨h1, -⟩ := h
    refine ⟨[], by simp [h1], rfl, ?_, ?_⟩
    · intro k hk; exact absurd hk (Nat.not_lt_zero k)
    · intro k hk; exact absurd hk (Nat.not_lt_zero k)
  | cons sm rest ih =>
    intro i acc res eff h
    unfold runConcepts at h
    cases hc : env.imageCall i with
    | error m => rw [hc] at h; simp at h
    | ok parts =>
      rw [hc] at h
      dsimp only at h
      by_cases hu : extractImageUrl parts = ""
      · rw [if_pos hu] at h; simp at h
      · rw [if_neg hu] at h
        simp only [Prod.mk.injEq] at h
        obtain ⟨h1, h2⟩ := h
        have hfull :
            runConcepts env brand rest (i + 1)
              (acc ++ [mkConcept (env.now i) i (extractImageUrl parts) sm])
            = (Except.ok res,
               (runConcepts env brand rest (i + 1)
                 (acc ++ [mkConcept (env.now i) i (extractImageUrl parts) sm])).2) := by
          rw [← h1]
        obtain ⟨tail', ht1, ht2, ht3, ht4⟩ :=
          ih (i + 1) (acc ++ [mkConcept (env.now i) i (extractImageUrl parts) sm]) res _ hfull
        refine ⟨mkConcept (env.now i) i (extractImageUrl parts) sm :: tail', ?_, ?_, ?_, ?_⟩
        · rw [ht1]; simp
        · simp [ht2]
        · intro k hk
          cases k with
          | zero => exact ⟨rfl, hu⟩
          | succ k' =>
            have hk' : k' < tail'.length := by simpa using hk
            have := ht3 k' hk'
            have harith : i + (k' + 1) = (i + 1) + k' := by omega
            rw [harith]
            simpa using this
        · intro k hk
          cases k with
          | zero =>
            show requestFails env (i + 0) = false
            simp only [Nat.add_zero, requestFails, hc]
            simpa using hu
          | succ k' =>
            have harith : i + (k' + 1) = (i + 1) + k' := by omega
            rw [harith]
            exact ht4 k' (by simpa using hk)

theorem runConcepts_err_at (env : Env) (brand : BrandInfo) (m : String) :
    ∀ (rest : List String) (k i : Nat) (acc : List LogoConcept),
      k < rest.length →
      (∀ j, j < k → requestFails env (i + j) = false) →
      env.imageCall (i + k) = Except.error m →
      ∃ eff, runConcepts env brand rest i acc = (Except.error (classifyCaught m), eff) ∧
        eff.countP isImageRequest = k + 1 := by
  intro rest
  induction rest with
  | nil =>
    intro k i acc hk
    exact absurd hk (by simp)
  | cons sm rest ih =>
    intro k i acc hk hprev herr
    cases k with
    | zero =>
      rw [Nat.add_zero] at herr
      refine ⟨[Effect.setLoading ("Designing visual concept " ++ toString (i + 1) ++ " of 3..."),
               Effect.imageRequest (mkPrompt brand sm)], ?_, ?_⟩
      · unfold runConcepts
        rw [herr]
      · simp [List.countP_cons, isImageRequest]
    | succ k' =>
      have h0 : requestFails env i = false := by
        have := hprev 0 (by omega)
        simpa using this
      obtain ⟨parts, hc, hu⟩ := requestFails_false_elim env i h0
      have herr' : env.imageCall ((i + 1) + k') = Except.error m := by
        rw [show (i + 1) + k' = i + (k' + 1) by omega]; exact herr
      have hprev' : ∀ j, j < k' → requestFails env ((i + 1) + j) = false := by
        intro j hj
        rw [show (i + 1) + j = i + (j + 1) by omega]
        exact hprev (j + 1) (by omega)
      obtain ⟨eff1, he1, hcount⟩ :=
        ih k' (i + 1) (acc ++ [mkConcept (env.now i) i (extractImageUrl parts) sm])
          (by simpa using hk) hprev' herr'
      refine ⟨[Effect.setLoading ("Designing visual concept " ++ toString (i + 1) ++ " of 3..."),
               Effect.imageRequest (mkPrompt brand sm)] ++ eff1, ?_, ?_⟩
      · unfold runConcepts
        rw [hc]
        dsimp only
        rw [if_neg hu]
        rw [he1]
      · simp only [List.countP_append, hcount]
        simp [List.countP_cons, isImageRequest]
        omega

theorem runConcepts_no_openSelectKey (env : Env) (brand : BrandInfo) :
    ∀ (rest : List String) (i : Nat) (acc : List LogoConcept),
      Effect.openSelectKey ∉ (runConcepts env brand rest i acc).2 := by
  intro rest
  induction rest with
  | nil => intro i acc; simp [runConcepts]
  | cons sm rest ih =>
    intro i acc
    unfold runConcepts
    cases hc : env.imageCall i with
    | error m => simp
    | ok parts =>
      dsimp only
      by_cases hu : extractImageUrl parts = ""
      · rw [if_pos hu]; simp
      · rw [if_neg hu]
        simp only [List.mem_append, List.mem_cons, List.mem_singleton]
        push_neg
        refine ⟨⟨by simp, by simp⟩, ?_⟩
        exact fun hmem => absurd hmem (ih (i + 1) _)

theorem finishGenerate_fields (s1 : AppState) (eff : List Effect)
    (out : Except String (List LogoConcept) × List Effect) :
    (finishGenerate s1 eff out).1.styleGuide = s1.styleGuide ∧
    (finishGenerate s1 eff out).1.selectedConcept = s1.selectedConcept ∧
    (finishGenerate s1 eff out).1.brandInfo = s1.brandInfo := by
  obtain ⟨res, genEff⟩ := out
  cases res <;> exact ⟨rfl, rfl, rfl⟩

theorem finishGenerate_ok (s1 : AppState) (eff : List Effect)
    (results : List LogoConcept) (genEff : List Effect) :
    finishGenerate s1 eff (Except.ok results, genEff)
      = ({ s1 with step := AppStep.GALLERY, concepts := results },
         eff ++ [Effect.setLoading initLoadingMsg] ++ genEff) := rfl

theorem finishGenerate_error (s1 : AppState) (eff : List Effect) (m : String)
    (genEff : List Effect) :
    (finishGenerate s1 eff (Except.error m, genEff)).1.step = AppStep.WIZARD ∧
    (finishGenerate s1 eff (Except.error m, genEff)).1.concepts = s1.concepts ∧
    (finishGenerate s1 eff (Except.error m, genEff)).1.errorMsg.isSome = true ∧
    (finishGenerate s1 eff (Except.error m, genEff)).2
      = eff ++ [Effect.setLoading initLoadingMsg] ++ genEff :=
  ⟨rfl, rfl, rfl, rfl⟩

theorem finishGenerate_effects (s1 : AppState) (eff : List Effect)
    (out : Except String (List LogoConcept) × List Effect) :
    (finishGenerate s1 eff out).2 = eff ++ [Effect.setLoading initLoadingMsg] ++ out.2 := by
  obtain ⟨res, genEff⟩ := out
  cases res <;> rfl

theorem finishGenerate_billing (s1 : AppState) (eff : List Effect) (genEff : List Effect) :
    (finishGenerate s1 eff (Except.error "BILLING_REQUIRED", genEff)).1.errorMsg
      = some billingErrorMsg := by
  unfold finishGenerate
  simp

theorem handleGenerate_fields (env : Env) (s : AppState) :
    (handleGenerate env s).1.styleGuide = s.styleGuide ∧
    (handleGenerate env s).1.selectedConcept = s.selectedConcept := by
  unfold handleGenerate
  obtain ⟨ok, b, eff, hkg⟩ := keyGate_shape env { s with errorMsg := none }
  rw [hkg]
  cases ok
  · exact ⟨rfl, rfl⟩
  · dsimp only
    obtain ⟨h1, h2, -⟩ :=
      finishGenerate_fields { s with errorMsg := none, hasKey := b } eff
        (runConcepts env ({ s with errorMsg := none, hasKey := b } : AppState).brandInfo styles 0 [])
    exact ⟨h1, h2⟩

theorem handleSelectLogo_selected (env : Env) (s : AppState) (c : LogoConcept) :
    (handleSelectLogo env s c).1.selectedConcept = some c := by
  unfold handleSelectLogo
  cases env.guideCall
  · rfl
  · dsimp only
    rename_i t
    cases env.parseJson (effectiveText t) <;> rfl

theorem handleSelectLogo_guideFails (env : Env) (s : AppState) (c : LogoConcept)
    (h : guideFails env = true) :
    (handleSelectLogo env s c).1.step = AppStep.GALLERY ∧
    (handleSelectLogo env s c).1.concepts = s.concepts ∧
    (handleSelectLogo env s c).1.errorMsg = s.errorMsg ∧
    (handleSelectLogo env s c).1.styleGuide = s.styleGuide ∧
    (handleSelectLogo env s c).2
      = [Effect.setLoading guideLoadingMsg,
         Effect.guideRequest (guidePrompt s.brandInfo c),
         Effect.alert guideAlertMsg] := by
  unfold guideFails at h
  unfold handleSelectLogo
  cases hgc : env.guideCall with
  | error m => exact ⟨rfl, rfl, rfl, rfl, rfl⟩
  | ok t =>
    rw [hgc] at h
    dsimp only at h ⊢
    cases hp : env.parseJson (effectiveText t) with
    | none => exact ⟨rfl, rfl, rfl, rfl, rfl⟩
    | some j => rw [hp] at h; simp at h

theorem handleSelectLogo_parsed (env : Env) (s : AppState) (c : LogoConcept)
    (t : Option String) (j : Json) (hgc : env.guideCall = Except.ok t)
    (hp : env.parseJson (effectiveText t) = some j) :
    (handleSelectLogo env s c).1.step = AppStep.STYLE_GUIDE ∧
    (handleSelectLogo env s c).1.styleGuide = some j := by
  unfold handleSelectLogo
  rw [hgc]
  dsimp only
  rw [hp]
  exact ⟨rfl, rfl⟩

theorem reach_styleGuide_selected {s : AppState} (h : Reach s) :
    s.styleGuide.isSome = true → s.selectedConcept.isSome = true := by
  induction h with
  | init => intro hg; simp [initState] at hg
  | next e hr ih =>
    rename_i s'
    cases e with
    | startWizard =>
      simp only [stepEvent]
      split <;> exact ih
    | resetIdle =>
      simp only [stepEvent]
      exact ih
    | setBrand b =>
      simp only [stepEvent]
      split <;> exact ih
    | keySelect env =>
      simp only [stepEvent]
      split <;> exact ih
    | submit env =>
      simp only [stepEvent]
      split
      · intro hg
        obtain ⟨h1, h2⟩ := handleGenerate_fields env s'
        rw [h1] at hg
        rw [h2]
        exact ih hg
      · exact ih
    | select env c =>
      simp only [stepEvent]
      split
      · intro hg
        rw [handleSelectLogo_selected env s' c]
        rfl
      · exact ih

theorem reach_sGallery : Reach sGallery :=
  Reach.next _ (Reach.next _ (Reach.next _ Reach.init))

theorem reach_sGuide : Reach sGuide := Reach.next _ reach_sGallery

theorem reach_sReset : Reach sReset := Reach.next _ reach_sGuide

/-! ### Claim theorems -/

/-- Claim C1: for every valid BrandBrief (all fields non-empty), a run of `submitBrief`
whose credential gate passes and whose generation batch succeeds produces exactly 3
LogoConcepts with pairwise distinct ids and non-empty imageUrls, and the stage becomes
GALLERY. -/
theorem c1_submitBrief_success (env : Env) (s : AppState)
    (hvalid : s.brandInfo.businessName ≠ "" ∧ s.brandInfo.industry ≠ "" ∧
      s.brandInfo.coreValues ≠ "" ∧ s.brandInfo.targetAudience ≠ "" ∧
      s.brandInfo.preferredStyle ≠ "")
    (hcred : env.aistudioPresent = true →
      env.hasSelectedApiKey = true ∨ env.openSelectKeyOk = true)
    (results : List LogoConcept) (genEff : List Effect)
    (hok : runConcepts env s.brandInfo styles 0 [] = (Except.ok results, genEff)) :
    (handleGenerate env s).1.step = AppStep.GALLERY ∧
    (handleGenerate env s).1.concepts.length = 3 ∧
    ((handleGenerate env s).1.concepts.map LogoConcept.id).Nodup ∧
    ∀ c ∈ (handleGenerate env s).1.concepts, c.imageUrl ≠ "" := by
  obtain ⟨tail, ht1, ht2, ht3, -⟩ :=
    runConcepts_ok_shape env s.brandInfo styles 0 [] results genEff hok
  simp only [List.nil_append] at ht1
  subst ht1
  have ht2' : results.length = 3 := ht2
  obtain ⟨a, b, c, hlist⟩ := List.length_eq_three.mp ht2'
  unfold handleGenerate
  obtain ⟨ok, bb, eff, hkg⟩ := keyGate_shape env { s with errorMsg := none }
  have hoktrue : ok = true := by
    have h := keyGate_proceeds env { s with errorMsg := none } hcred
    rw [hkg] at h
    exact h
  subst hoktrue
  rw [hkg]
  dsimp only
  rw [show runConcepts env
        ({ s with errorMsg := none, hasKey := bb } : AppState).brandInfo styles 0 []
        = (Except.ok results, genEff) from hok]
  rw [finishGenerate_ok]
  dsimp only
  subst hlist
  have h0 := ht3 0 (by simp)
  have h1 := ht3 1 (by simp)
  have h2 := ht3 2 (by simp)
  have ha : a.id = mkId (env.now 0) 0 := h0.1
  have hb : b.id = mkId (env.now 1) 1 := h1.1
  have hc : c.id = mkId (env.now 2) 2 := h2.1
  have hua : a.imageUrl ≠ "" := h0.2
  have hub : b.imageUrl ≠ "" := h1.2
  have huc : c.imageUrl ≠ "" := h2.2
  have hab : a.id ≠ b.id := by
    rw [ha, hb]; exact mkId_ne _ _ 0 1 '0' '1' rfl rfl (by decide)
  have hac : a.id ≠ c.id := by
    rw [ha, hc]; exact mkId_ne _ _ 0 2 '0' '2' rfl rfl (by decide)
  have hbc : b.id ≠ c.id := by
    rw [hb, hc]; exact mkId_ne _ _ 1 2 '1' '2' rfl rfl (by decide)
  refine ⟨rfl, rfl, ?_, ?_⟩
  · simp [List.nodup_cons, hab, hac, hbc]
  · intro x hx
    simp only [List.mem_cons, List.not_mem_nil, or_false] at hx
    rcases hx with rfl | rfl | rfl
    · exact hua
    · exact hub
    · exact huc

theorem c1_submitBrief_success_witness :
    (handleGenerate okEnv sBrief).1.step = AppStep.GALLERY ∧
    (handleGenerate okEnv sBrief).1.concepts.length = 3 ∧
    ((handleGenerate okEnv sBrief).1.concepts.map LogoConcept.id).Nodup ∧
    ∀ c ∈ (handleGenerate okEnv sBrief).1.concepts, c.imageUrl ≠ "" :=
  c1_submitBrief_success okEnv sBrief
    (by refine ⟨?_, ?_, ?_, ?_, ?_⟩ <;> decide)
    (fun _ => Or.inl rfl)
    _ _ rfl

/-- Claim C2: `submitBrief` is all-or-nothing over its batch of 3 image requests — when the
credential gate passes and any of the 3 underlying requests fails, the concept list in
controller state is unchanged (no partial gallery), an error classification is recorded in
`errorMsg`, and the stage returns to WIZARD. -/
theorem c2_submitBrief_allOrNothing (env : Env) (s : AppState)
    (hcred : env.aistudioPresent = true →
      env.hasSelectedApiKey = true ∨ env.openSelectKeyOk = true)
    (hfail : ∃ k, k < 3 ∧ requestFails env k = true) :
    (handleGenerate env s).1.concepts = s.concepts ∧
    (handleGenerate env s).1.errorMsg.isSome = true ∧
    (handleGenerate env s).1.step = AppStep.WIZARD := by
  unfold handleGenerate
  obtain ⟨ok, bb, eff, hkg⟩ := keyGate_shape env { s with errorMsg := none }
  have hoktrue : ok = true := by
    have h := keyGate_proceeds env { s with errorMsg := none } hcred
    rw [hkg] at h
    exact h
  subst hoktrue
  rw [hkg]
  dsimp only
  rcases hrc : runConcepts env
      ({ s with errorMsg := none, hasKey := bb } : AppState).brandInfo styles 0 []
    with ⟨resE, genEff⟩
  cases resE with
  | ok results =>
    exfalso
    obtain ⟨-, -, -, -, ht4⟩ :=
      runConcepts_ok_shape env _ styles 0 [] results genEff hrc
    obtain ⟨k, hk3, hkf⟩ := hfail
    have hfalse := ht4 k hk3
    rw [Nat.zero_add] at hfalse
    rw [hfalse] at hkf
    exact Bool.noConfusion hkf
  | error m =>
    obtain ⟨hstep, hconcepts, herrmsg, -⟩ :=
      finishGenerate_error { s with errorMsg := none, hasKey := bb } eff m genEff
    exact ⟨hconcepts, herrmsg, hstep⟩

theorem c2_submitBrief_allOrNothing_witness :
    (handleGenerate env404 sBrief).1.concepts = sBrief.concepts ∧
    (handleGenerate env404 sBrief).1.errorMsg.isSome = true ∧
    (handleGenerate env404 sBrief).1.step = AppStep.WIZARD :=
  c2_submitBrief_allOrNothing env404 sBrief (fun _ => Or.inl rfl) ⟨0, by decide, rfl⟩

/-- Claim C3 counterexample: from the reachable gallery state, `selectConcept`
(`handleSelectLogo`) dispatches its generation request even though `hasCredential()`
(`window.aistudio.hasSelectedApiKey`) reports false — the handler contains no credential
check at all, refuting the claim for `selectConcept`. -/
theorem c3_counterexample :
    Reach sGallery ∧ sGallery.step = AppStep.GALLERY ∧
    envNoCred.hasSelectedApiKey = false ∧
    (handleSelectLogo envNoCred sGallery conceptZero).2.any isGenRequest = true :=
  ⟨reach_sGallery, rfl, rfl, rfl⟩

/-- Claim C3 amended: `submitBrief` (`handleGenerate`) never dispatches a generation
request while the credential is absent — if it dispatched anything, either a key was
already selected or the credential-selection flow completed first; `selectConcept`
(`handleSelectLogo`), by contrast, performs no credential check and dispatches its
generation request unconditionally. -/
theorem c3_amended :
    (∀ (env : Env) (s : AppState), env.aistudioPresent = true →
      (handleGenerate env s).2.any isGenRequest = true →
      env.hasSelectedApiKey = true ∨ env.openSelectKeyOk = true) ∧
    (∀ (env : Env) (s : AppState) (c : LogoConcept),
      (handleSelectLogo env s c).2.any isGenRequest = true) := by
  constructor
  · intro env s hai hdisp
    cases h2 : env.hasSelectedApiKey
    · cases h3 : env.openSelectKeyOk
      · exfalso
        unfold handleGenerate at hdisp
        rw [keyGate_noCred env { s with errorMsg := none } hai h2 h3] at hdisp
        simp [isGenRequest] at hdisp
      · exact Or.inr rfl
    · exact Or.inl rfl
  · intro env s c
    unfold handleSelectLogo
    cases env.guideCall with
    | error m => simp [isGenRequest]
    | ok t =>
      dsimp only
      cases env.parseJson (effectiveText t) <;> simp [isGenRequest]

theorem c3_amended_witness :
    ((handleGenerate okEnv sBrief).2.any isGenRequest = true) ∧
    (okEnv.hasSelectedApiKey = true ∨ okEnv.openSelectKeyOk = true) ∧
    ((handleSelectLogo okEnv sGallery conceptZero).2.any isGenRequest = true) :=
  ⟨by decide, c3_amended.1 okEnv sBrief rfl (by decide),
   c3_amended.2 okEnv sGallery conceptZero⟩

/-- Claim C4: every failing run of `selectConcept` leaves the previously produced
LogoConcepts in controller state unchanged (so each keeps its original imageUrl),
transitions the stage to GALLERY (never WIZARD), leaves the blocking `errorMsg` untouched,
and shows only the non-blocking alert notice. -/
theorem c4_selectConcept_failure (env : Env) (s : AppState) (c : LogoConcept)
    (hfail : guideFails env = true) :
    (handleSelectLogo env s c).1.step = AppStep.GALLERY ∧
    (handleSelectLogo env s c).1.concepts = s.concepts ∧
    (handleSelectLogo env s c).1.errorMsg = s.errorMsg ∧
    Effect.alert guideAlertMsg ∈ (handleSelectLogo env s c).2 := by
  obtain ⟨h1, h2, h3, -, h5⟩ := handleSelectLogo_guideFails env s c hfail
  refine ⟨h1, h2, h3, ?_⟩
  rw [h5]
  simp

theorem c4_selectConcept_failure_witness :
    guideFails env404 = true ∧
    ((handleSelectLogo env404 sGallery conceptZero).1.step = AppStep.GALLERY ∧
     (handleSelectLogo env404 sGallery conceptZero).1.concepts = sGallery.concepts ∧
     (handleSelectLogo env404 sGallery conceptZero).1.errorMsg = sGallery.errorMsg ∧
     Effect.alert guideAlertMsg ∈ (handleSelectLogo env404 sGallery conceptZero).2) :=
  ⟨rfl, c4_selectConcept_failure env404 sGallery conceptZero rfl⟩

/-- Claim C5 counterexample: from the reachable gallery state, a service response whose
text is the empty JSON object parses successfully, so `selectConcept` accepts it and
exposes it in the STYLE_GUIDE stage even though every required StyleGuide field (in
particular all three colors and the usage tips) is absent — no `MalformedStyleGuide`
classification happens for missing fields. -/
theorem c5_counterexample :
    Reach sGallery ∧
    (handleSelectLogo envEmptyGuide sGallery conceptZero).1.step = AppStep.STYLE_GUIDE ∧
    (handleSelectLogo envEmptyGuide sGallery conceptZero).1.styleGuide
      = some (Json.obj []) ∧
    (jsonField (Json.obj []) "primaryColor").isNone = true ∧
    (jsonField (Json.obj []) "secondaryColor").isNone = true ∧
    (jsonField (Json.obj []) "accentColor").isNone = true ∧
    (jsonField (Json.obj []) "usageTips").isNone = true :=
  ⟨reach_sGallery, rfl, rfl, rfl, rfl, rfl, rfl⟩

/-- Claim C5 amended: `selectConcept` classifies a response as a failure exactly when the
call rejects or the (fallback-substituted) text is not parseable JSON — then the stage
returns to GALLERY and the stored StyleGuide is unchanged; any response that parses as
JSON is accepted verbatim and exposed in the STYLE_GUIDE stage, with no validation of the
three color fields or of the usage tips (schema enforcement is delegated to the remote
service). -/
theorem c5_amended (env : Env) (s : AppState) (c : LogoConcept) :
    (guideFails env = true →
      (handleSelectLogo env s c).1.step = AppStep.GALLERY ∧
      (handleSelectLogo env s c).1.styleGuide = s.styleGuide) ∧
    (∀ t j, env.guideCall = Except.ok t → env.parseJson (effectiveText t) = some j →
      (handleSelectLogo env s c).1.step = AppStep.STYLE_GUIDE ∧
      (handleSelectLogo env s c).1.styleGuide = some j) := by
  constructor
  · intro h
    obtain ⟨h1, -, -, h4, -⟩ := handleSelectLogo_guideFails env s c h
    exact ⟨h1, h4⟩
  · intro t j hgc hp
    exact handleSelectLogo_parsed env s c t j hgc hp

theorem c5_amended_witness :
    guideFails env404 = true ∧
    ((handleSelectLogo env404 sGallery conceptZero).1.step = AppStep.GALLERY ∧
     (handleSelectLogo env404 sGallery conceptZero).1.styleGuide = sGallery.styleGuide) :=
  ⟨rfl, (c5_amended env404 sGallery conceptZero).1 rfl⟩

/-- Claim C6 counterexample: a response whose parts carry two inline image payloads makes
`generateLogoConcepts` use the LAST payload, not the first, as every concept's imageUrl —
the extraction loop overwrites `imageUrl` on each inline part. -/
theorem c6_counterexample :
    extractImageUrl [{ inlineData := some "FIRST" }, { inlineData := some "SECOND" }]
      = "data:image/png;base64,SECOND" ∧
    "data:image/png;base64,SECOND" ≠ "data:image/png;base64,FIRST" ∧
    ((handleGenerate envTwoImages sBrief).1.concepts.map LogoConcept.imageUrl)
      = ["data:image/png;base64,SECOND", "data:image/png;base64,SECOND",
         "data:image/png;base64,SECOND"] :=
  ⟨rfl, by decide, rfl⟩

/-- Claim C6 amended: `generateConcept` extracts the LAST inline image payload found among
the response's content parts (`extractImageUrl` equals the data URL built from
`lastInline`); when no inline payload is present, the controller's `generateLogoConcepts`
raises the empty-result error and returns no LogoConcept (a hard failure). -/
theorem c6_amended :
    (∀ parts : List RespPart,
      extractImageUrl parts
        = (match lastInline parts with
           | some d => dataUrlHead ++ d
           | none => "")) ∧
    (∀ (env : Env) (brand : BrandInfo) (parts : List RespPart),
      env.imageCall 0 = Except.ok parts → lastInline parts = none →
      ∃ eff, runConcepts env brand styles 0 [] = (Except.error emptyResultMsg, eff)) := by
  constructor
  · exact extractImageUrl_eq
  · intro env brand parts hc hnone
    have hu : extractImageUrl parts = "" := by
      rw [extractImageUrl_eq, hnone]
    refine ⟨[Effect.setLoading ("Designing visual concept " ++ toString (0 + 1) ++ " of 3..."),
             Effect.imageRequest (mkPrompt brand
               "minimalist vector emblem, high-end professional brand mark, clean lines, solid white background")],
           ?_⟩
    simp only [styles]
    unfold runConcepts
    rw [hc]
    dsimp only
    rw [if_pos hu]
    rw [show classifyCaught emptyResultMsg = emptyResultMsg from by decide]

theorem c6_amended_witness :
    (runConcepts envNoImage sampleBrief styles 0 []).1 = Except.error emptyResultMsg := by
  obtain ⟨eff, heq⟩ := c6_amended.2 envNoImage sampleBrief [] rfl rfl
  rw [heq]

/-- Claim C7 counterexample: the state reached by Idle → Wizard → submit (success) →
select (success) → reset is a reachable state in stage IDLE whose concept list still holds
the 3 concepts and whose StyleGuide is still present — the reset transition clears
neither, refuting both "after any reset transition to Idle the concept set is empty" and
"a StyleGuide is present only in the StyleGuideReady stage". -/
theorem c7_counterexample :
    Reach sReset ∧ sReset.step = AppStep.IDLE ∧
    sReset.concepts.length = 3 ∧ sReset.styleGuide.isSome = true :=
  ⟨reach_sReset, rfl, rfl, rfl⟩

/-- Claim C7 amended: in the initial state the concept set is empty and no StyleGuide is
present, and in every reachable state a stored StyleGuide is always paired with a selected
LogoConcept; but reset to Idle does not clear them — concepts and StyleGuide persist until
overwritten, as the counterexample shows. -/
theorem c7_amended :
    (initState.concepts = [] ∧ initState.styleGuide = none) ∧
    (∀ s : AppState, Reach s → s.styleGuide.isSome = true →
      s.selectedConcept.isSome = true) :=
  ⟨⟨rfl, rfl⟩, fun _ h => reach_styleGuide_selected h⟩

theorem c7_amended_witness :
    sGuide.styleGuide.isSome = true ∧ sGuide.selectedConcept.isSome = true :=
  ⟨rfl, c7_amended.2 sGuide reach_sGuide rfl⟩

/-- Claim C8: when the credential gate passes and the first failing image request of a
`submitBrief` batch rejects with a message containing "404" or "not found", the failure is
classified as the credential-tier/billing error: `errorMsg` becomes the user-visible
billing guidance text, the stage returns to WIZARD, and exactly the requests up to the
failing one were dispatched — no generation request is retried. -/
theorem c8_billing_classification (env : Env) (s : AppState) (m : String) (k : Nat)
    (hsel : env.hasSelectedApiKey = true)
    (hk : k < 3)
    (hprev : ∀ j, j < k → requestFails env j = false)
    (herr : env.imageCall k = Except.error m)
    (h404 : (strContains m "404" || strContains m "not found") = true) :
    (handleGenerate env s).1.errorMsg = some billingErrorMsg ∧
    (handleGenerate env s).1.step = AppStep.WIZARD ∧
    (handleGenerate env s).2.countP isImageRequest = k + 1 := by
  have hclass : classifyCaught m = "BILLING_REQUIRED" := by
    unfold classifyCaught
    rw [if_pos h404]
  have hprev' : ∀ j, j < k → requestFails env (0 + j) = false := by
    intro j hj
    rw [Nat.zero_add]
    exact hprev j hj
  have herr' : env.imageCall (0 + k) = Except.error m := by
    rw [Nat.zero_add]
    exact herr
  obtain ⟨genEff, hrc, hcount⟩ :=
    runConcepts_err_at env s.brandInfo m styles k 0 [] hk hprev' herr'
  unfold handleGenerate
  rw [keyGate_of_hasKey env { s with errorMsg := none } hsel]
  dsimp only
  rw [hrc]
  rw [hclass]
  obtain ⟨hstep, -, -, heff⟩ :=
    finishGenerate_error { s with errorMsg := none } [] "BILLING_REQUIRED" genEff
  refine ⟨?_, hstep, ?_⟩
  · exact finishGenerate_billing { s with errorMsg := none } [] genEff
  · rw [heff]
    simp [List.countP_append, List.countP_cons, isImageRequest, hcount]

theorem c8_billing_classification_witness :
    (handleGenerate env404 sBrief).1.errorMsg = some billingErrorMsg ∧
    (handleGenerate env404 sBrief).1.step = AppStep.WIZARD ∧
    (handleGenerate env404 sBrief).2.countP isImageRequest = 0 + 1 :=
  c8_billing_classification env404 sBrief
    "models/gemini-2.5-flash-image is not found for API version v1" 0 rfl (by decide)
    (fun j hj => absurd hj (Nat.not_lt_zero j)) rfl (by decide)

/-- Claim C9: when the credential is absent (`hasSelectedApiKey` false with the selector
available) and `submitBrief` is invoked, `openSelectKey` is called exactly once and before
any generation request (it is the first dispatched effect and occurs once in the log); if
the selection flow fails, no generation request is sent and the wizard stage is
unchanged. -/
theorem c9_credential_flow (env : Env) (s : AppState)
    (hai : env.aistudioPresent = true) (hno : env.hasSelectedApiKey = false) :
    (handleGenerate env s).2.head? = some Effect.openSelectKey ∧
    (handleGenerate env s).2.count Effect.openSelectKey = 1 ∧
    (env.openSelectKeyOk = false →
      (handleGenerate env s).2.any isGenRequest = false ∧
      (handleGenerate env s).1.step = s.step) := by
  cases h3 : env.openSelectKeyOk
  · unfold handleGenerate
    rw [keyGate_noCred env { s with errorMsg := none } hai hno h3]
    dsimp only
    exact ⟨rfl, by decide, fun _ => ⟨rfl, rfl⟩⟩
  · unfold handleGenerate
    rw [keyGate_openOk env { s with errorMsg := none } hai hno h3]
    dsimp only
    rw [finishGenerate_effects]
    have hnomem := runConcepts_no_openSelectKey env
      ({ s with errorMsg := none, hasKey := true } : AppState).brandInfo styles 0 []
    refine ⟨rfl, ?_, ?_⟩
    · rw [List.count_append, List.count_append]
      rw [List.count_eq_zero.mpr hnomem]
      decide
    · intro hcontr
      exact Bool.noConfusion hcontr

theorem c9_credential_flow_witness :
    (handleGenerate envNoCred sBrief).2.head? = some Effect.openSelectKey ∧
    (handleGenerate envNoCred sBrief).2.count Effect.openSelectKey = 1 ∧
    ((handleGenerate envNoCred sBrief).2.any isGenRequest = false ∧
     (handleGenerate envNoCred sBrief).1.step = sBrief.step) :=
  ⟨(c9_credential_flow envNoCred sBrief rfl rfl).1,
   (c9_credential_flow envNoCred sBrief rfl rfl).2.1,
   (c9_credential_flow envNoCred sBrief rfl rfl).2.2 rfl⟩

/-- Claim C10: every request built by `GeminiService.generateLogoConcepts` and
`GeminiService.generateStyleGuide` goes through the single `GoogleGenAI` client constructed
at module load and carries the API key captured at that moment; a key selected afterwards
(any `laterKey` different from the load-time `API_KEY`) is never the key of any of these
requests. -/
theorem c10_service_key_capture (loadEnvKey : Option String) (laterKey : String)
    (hne : laterKey ≠ API_KEY loadEnvKey) (brand : BrandInfo) (logo : LogoConcept) :
    (∀ r ∈ GeminiService.conceptRequests (GeminiService.ai loadEnvKey) brand,
      r.apiKey = API_KEY loadEnvKey ∧ r.apiKey ≠ laterKey) ∧
    ((GeminiService.guideRequest (GeminiService.ai loadEnvKey) brand logo).apiKey
        = API_KEY loadEnvKey ∧
     (GeminiService.guideRequest (GeminiService.ai loadEnvKey) brand logo).apiKey
        ≠ laterKey) := by
  constructor
  · intro r hr
    unfold GeminiService.conceptRequests at hr
    simp only [serviceStyles, List.map_cons, List.map_nil, List.mem_cons,
      List.not_mem_nil, or_false] at hr
    rcases hr with rfl | rfl | rfl <;>
      exact ⟨rfl, fun hcontr => hne hcontr.symm⟩
  · exact ⟨rfl, fun hcontr => hne hcontr.symm⟩

theorem c10_service_key_capture_witness :
    ((GeminiService.guideRequest (GeminiService.ai (some "K1")) sampleBrief
        conceptZero).apiKey = API_KEY (some "K1")) ∧
    ((GeminiService.guideRequest (GeminiService.ai (some "K1")) sampleBrief
        conceptZero).apiKey ≠ "K2") :=
  (c10_service_key_capture (some "K1") "K2" (by decide) sampleBrief conceptZero).2
